import Mathlib

/-!
Verification development for the excel-merger repository.

The Python sources under `src/core/` (processor.py, normalizer.py,
controller.py) are shallowly embedded below.  Conventions used throughout:

* Python `float` values are modelled by exact rationals (`Frac` below,
  a kernel-computable normalized fraction type); IEEE-754 rounding is not
  modelled.  All float literals appearing in the source (0.4, 0.95, ...)
  are exactly representable choices of thresholds and weights.
* Python strings are modelled as `List Char`.  `str.lower` is modelled
  ASCII-only (the identifiers exercised here are ASCII or Korean, and
  Korean has no case).  `str.strip` strips the ASCII whitespace set.
* `None`/NaN cells, ints, floats, strings and (midnight) datetimes are
  the `Cell` type.  Wall-clock timestamps recorded in change logs are
  omitted from the `ChangeRecord` model.
* File I/O (openpyxl / pandas readers) is an excluded collaborator: the
  controller model takes already-analysed file structures and sheet data
  as inputs, exactly as `_merge_process` consumes them.
-/

namespace EM

/-! ## Exact rationals (kernel-computable model of Python float arithmetic) -/

/-- Normalized fraction: numerator `n`, positive denominator `d`,
always constructed in lowest terms via `mkFrac`. -/
structure Frac where
  n : Int
  d : Nat
deriving DecidableEq

/-- Smart constructor: normalizes sign into the numerator and divides by the
gcd, so that structural equality of `Frac` is value equality. `b = 0` maps to
0 (never exercised on the source's code paths). -/
def mkFrac (a : Int) (b : Int) : Frac :=
  if b = 0 then ⟨0, 1⟩
  else
    let s : Int := if b < 0 then -a else a
    let bn : Nat := b.natAbs
    let g : Nat := Nat.gcd s.natAbs bn
    ⟨s / (g : Int), bn / g⟩

/-- Shorthand for a fraction literal `a / b`. -/
def fq (a b : Int) : Frac := mkFrac a b

def Frac.ofInt (z : Int) : Frac := ⟨z, 1⟩

def f0 : Frac := ⟨0, 1⟩

def f1 : Frac := ⟨1, 1⟩

def fadd (x y : Frac) : Frac := mkFrac (x.n * y.d + y.n * x.d) (x.d * y.d)

def fsub (x y : Frac) : Frac := mkFrac (x.n * y.d - y.n * x.d) (x.d * y.d)

def fmul (x y : Frac) : Frac := mkFrac (x.n * y.n) (x.d * y.d)

def fdivF (x y : Frac) : Frac := mkFrac (x.n * y.d) (x.d * y.n)

instance : Add Frac := ⟨fadd⟩

instance : Sub Frac := ⟨fsub⟩

instance : Mul Frac := ⟨fmul⟩

/-- Boolean strict order on fractions (denominators are positive for all
values built by `mkFrac`). -/
def fltB (x y : Frac) : Bool := x.n * (y.d : Int) < y.n * (x.d : Int)

def fleB (x y : Frac) : Bool := x.n * (y.d : Int) ≤ y.n * (x.d : Int)

/-- Floor of a fraction, as used by `datetime + timedelta(days=float)`. -/
def ffloor (x : Frac) : Int := Int.fdiv x.n x.d

/-- Banker's rounding to an integer, the semantics of Python's `round`. -/
def roundHalfEven (x : Frac) : Int :=
  let f := Int.fdiv x.n x.d
  let r2 := 2 * (x.n - f * x.d)
  if r2 < (x.d : Int) then f
  else if (x.d : Int) < r2 then f + 1
  else if f % 2 = 0 then f else f + 1

/-- Python `round(x, k)` for `k ≥ 0` (idealized over exact rationals). -/
def roundToPlaces (x : Frac) (k : Nat) : Frac :=
  mkFrac (roundHalfEven (fmul x ⟨((10 ^ k : Nat) : Int), 1⟩)) ((10 ^ k : Nat) : Int)

/-! ## Python string primitives -/

/-- The default whitespace set of `str.strip` / `\s` (ASCII part). -/
def isPySpace (c : Char) : Bool :=
  c = ' ' || c = '\t' || c = '\n' || c = '\r' || c = '\x0b' || c = '\x0c'

/-- Python `str.strip()` (ASCII whitespace model). -/
def pyStrip (l : List Char) : List Char :=
  ((l.dropWhile isPySpace).reverse.dropWhile isPySpace).reverse

/-- Python `str.lower()` (ASCII model; Korean characters are uncased). -/
def pyLower (l : List Char) : List Char := l.map Char.toLower

/-! ## Cell values -/

/-- A spreadsheet cell value as seen by the normalizer: Python `None`/NaN,
`int`, `float`, `str`, or a (midnight) `datetime`.  Datetimes are carried as
proleptic-Gregorian day numbers (1970-01-01 = day 0). -/
inductive Cell where
  | none : Cell
  | int (z : Int) : Cell
  | float (q : Frac) : Cell
  | str (s : List Char) : Cell
  | dt (day : Int) : Cell
deriving DecidableEq

def Cell.isNone : Cell → Bool
  | .none => true
  | _ => false

/-- Python truthiness of a cell value (`bool(x)`). -/
def Cell.truthy : Cell → Bool
  | .none => false
  | .int z => z ≠ 0
  | .float q => q.n ≠ 0
  | .str s => s ≠ []
  | .dt _ => true

def Cell.isStr : Cell → Bool
  | .str _ => true
  | _ => false

/-! ## Header-row detection (`ExcelProcessor._detect_header_row`) -/

/-- Score of one candidate header row (`None` when the row is skipped:
falsy row, or fewer than 2 non-`None` cells).  Mirrors the body of the
`for row_idx, row_data in enumerate(data[:10])` loop. -/
def rowScore (row : List Cell) (idx : Nat) : Option Frac :=
  if ¬ row.any Cell.truthy then Option.none
  else
    let nonEmpty := row.filter (fun c => !c.isNone)
    if nonEmpty.length < 2 then Option.none
    else
      let textCount := (nonEmpty.filter Cell.isStr).length
      let textPart := fq textCount nonEmpty.length
      let uniquePart := fq nonEmpty.dedup.length nonEmpty.length
      let emptyCount := (row.filter Cell.isNone).length
      let emptyPart := fq emptyCount row.length
      let positionScore := fq (10 - (idx : Int)) 10
      some (textPart * fq 4 10 + uniquePart * fq 3 10 +
            (f1 - emptyPart) * fq 2 10 + positionScore * fq 1 10)

/-- The scan loop of `_detect_header_row`, carrying `(best_row, best_score)`. -/
def detectLoop : List (List Cell) → Nat → Int → Frac → Int × Frac
  | [], _, best, bestScore => (best, bestScore)
  | row :: rest, idx, best, bestScore =>
    match rowScore row idx with
    | Option.none => detectLoop rest (idx + 1) best bestScore
    | some sc =>
      if fltB bestScore sc then detectLoop rest (idx + 1) (idx : Int) sc
      else detectLoop rest (idx + 1) best bestScore

/-- `ExcelProcessor._detect_header_row`: returns the chosen header row index,
or `-1` when no row scores above 0.5. -/
def detect_header_row (data : List (List Cell)) : Int :=
  if data.isEmpty then -1
  else
    let r := detectLoop (data.take 10) 0 (-1) f0
    if fltB (fq 1 2) r.2 then r.1 else -1

/-! ## difflib.SequenceMatcher (no junk: `SequenceMatcher(None, a, b)` on
short strings, so autojunk never applies) -/

/-- One inner-loop update of `find_longest_match`: process candidate column
`j` (where `b[j] == a[i]`), reading run lengths from the previous row
`j2len` and extending the best block on strict improvement. -/
def flmRowStep (i : Nat) (j2len : Nat → Nat)
    (st : (Nat → Nat) × Nat × Nat × Nat) (j : Nat) : (Nat → Nat) × Nat × Nat × Nat :=
  let k := (if j = 0 then 0 else j2len (j - 1)) + 1
  let newRow := fun x => if x = j then k else st.1 x
  if st.2.2.2 < k then (newRow, i + 1 - k, j + 1 - k, k)
  else (newRow, st.2)

/-- One outer-loop row of `find_longest_match`: scan all `j ∈ [blo, bhi)`
with `b[j] == a[i]` (the `b2j` index list, in increasing order). -/
def flmRow (a b : List Char) (blo bhi i : Nat) (j2len : Nat → Nat)
    (best : Nat × Nat × Nat) : (Nat → Nat) × Nat × Nat × Nat :=
  let js := (List.range' blo (bhi - blo)).filter (fun j => b.getD j ' ' = a.getD i ' ')
  js.foldl (flmRowStep i j2len) ((fun _ => 0), best)

/-- The dynamic-programming scan of `find_longest_match` over rows
`i ∈ [alo, ahi)`. -/
def flmScan (a b : List Char) (blo bhi : Nat) :
    List Nat → (Nat → Nat) → Nat × Nat × Nat → Nat × Nat × Nat
  | [], _, best => best
  | i :: is, j2len, best =>
    let r := flmRow a b blo bhi i j2len best
    flmScan a b blo bhi is r.1 r.2

/-- Backward extension loop of `find_longest_match` (the junk-free variant:
with no junk characters the `isbjunk` guards are vacuous). -/
def flmExtBack (a b : List Char) (alo blo : Nat) :
    Nat → Nat × Nat × Nat → Nat × Nat × Nat
  | 0, st => st
  | fuel + 1, (bi, bj, bs) =>
    if alo < bi ∧ blo < bj ∧ a.getD (bi - 1) ' ' = b.getD (bj - 1) ' ' then
      flmExtBack a b alo blo fuel (bi - 1, bj - 1, bs + 1)
    else (bi, bj, bs)

/-- Forward extension loop of `find_longest_match`. -/
def flmExtFwd (a b : List Char) (ahi bhi : Nat) :
    Nat → Nat × Nat × Nat → Nat × Nat × Nat
  | 0, st => st
  | fuel + 1, (bi, bj, bs) =>
    if bi + bs < ahi ∧ bj + bs < bhi ∧ a.getD (bi + bs) ' ' = b.getD (bj + bs) ' ' then
      flmExtFwd a b ahi bhi fuel (bi, bj, bs + 1)
    else (bi, bj, bs)

/-- `difflib.SequenceMatcher.find_longest_match` restricted to windows
`a[alo:ahi]`, `b[blo:bhi]`, without junk. -/
def findLongestMatch (a b : List Char) (alo ahi blo bhi : Nat) : Nat × Nat × Nat :=
  let best := flmScan a b blo bhi (List.range' alo (ahi - alo)) (fun _ => 0) (alo, blo, 0)
  let back := flmExtBack a b alo blo best.1 best
  flmExtFwd a b ahi bhi (ahi + 1) back

/-- Total size of all matching blocks (`get_matching_blocks` recursion);
`fuel` bounds the recursion depth (window sizes shrink strictly). -/
def matchTotal (a b : List Char) : Nat → Nat → Nat → Nat → Nat → Nat
  | 0, _, _, _, _ => 0
  | fuel + 1, alo, ahi, blo, bhi =>
    let r := findLongestMatch a b alo ahi blo bhi
    if r.2.2 = 0 then 0
    else
      matchTotal a b fuel alo r.1 blo r.2.1 + r.2.2 +
        matchTotal a b fuel (r.1 + r.2.2) ahi (r.2.1 + r.2.2) bhi

/-- `SequenceMatcher(None, a, b).ratio()`: `2·M / T`, and 1 when both
strings are empty. -/
def sequenceMatchScore (a b : List Char) : Frac :=
  let t := a.length + b.length
  if t = 0 then f1
  else fq (2 * (matchTotal a b (t + 1) 0 a.length 0 b.length : Int)) t

/-- Contiguous-prefix test on character lists. -/
def isPrefixChars : List Char → List Char → Bool
  | [], _ => true
  | _ :: _, [] => false
  | c :: cs, d :: ds => c = d && isPrefixChars cs ds

/-- Python substring test `w in l` (contiguous containment). -/
def isSubChars (w : List Char) : List Char → Bool
  | [] => isPrefixChars w []
  | d :: rest => isPrefixChars w (d :: rest) || isSubChars w rest

/-! ## Synonym table and similarity (`ExcelProcessor.calculate_similarity`) -/

/-- The synonym dictionary of `ExcelProcessor.__init__`, in source order. -/
def synonymDict : List (String × List String) :=
  [("이름", ["성명", "name", "성함", "이름"]),
   ("성명", ["이름", "name", "성함"]),
   ("name", ["이름", "성명", "성함"]),
   ("나이", ["연령", "age", "연세"]),
   ("연령", ["나이", "age", "연세"]),
   ("age", ["나이", "연령", "연세"]),
   ("부서", ["부서명", "department", "소속", "소속부서", "팀"]),
   ("부서명", ["부서", "department", "소속", "소속부서"]),
   ("department", ["부서", "부서명", "소속", "소속부서"]),
   ("소속부서", ["부서", "부서명", "department"]),
   ("입사일", ["입사일자", "hire_date", "hiredate", "입사_일", "채용일"]),
   ("입사일자", ["입사일", "hire_date", "hiredate", "입사_일"]),
   ("hire_date", ["입사일", "입사일자", "채용일"]),
   ("hiredate", ["입사일", "입사일자", "채용일"]),
   ("연봉", ["급여", "salary", "월급", "연봉정보", "급료"]),
   ("급여", ["연봉", "salary", "월급", "급료"]),
   ("salary", ["연봉", "급여", "월급", "급료"]),
   ("월급", ["연봉", "급여", "salary", "급료"]),
   ("직원정보", ["employee_info", "employee info", "사원정보", "직원 정보"]),
   ("employee_info", ["직원정보", "사원정보", "직원 정보"]),
   ("employee info", ["직원정보", "사원정보", "직원 정보"])]

/-- Direct dictionary lookup step of `_check_synonyms`: `k` is a key of the
synonym table and `other` is among its (lowercased) synonyms. -/
def synonymLookup (k other : List Char) : Bool :=
  match synonymDict.find? (fun kv => kv.1.toList == k) with
  | some kv => (kv.2.map (fun s => pyLower s.toList)).any (fun w => w == other)
  | Option.none => false

/-- `ExcelProcessor._check_synonyms`: exact synonym membership scores 0.95,
shared-cluster substring containment scores 0.8, otherwise 0. -/
def check_synonyms (s1 s2 : String) : Frac :=
  let l1 := pyStrip (pyLower s1.toList)
  let l2 := pyStrip (pyLower s2.toList)
  if synonymLookup l1 l2 then fq 95 100
  else if synonymLookup l2 l1 then fq 95 100
  else if synonymDict.any (fun kv =>
      let ws := pyLower kv.1.toList :: kv.2.map (fun s => pyLower s.toList)
      ws.any (fun w => isSubChars w l1) && ws.any (fun w => isSubChars w l2)) then
    fq 8 10
  else f0

/-- Identifier normalization inside `calculate_similarity`: lowercase,
strip, drop whitespace/hyphen/underscore/bracket/period characters. -/
def normalizeIdent (s : String) : List Char :=
  (pyStrip (pyLower s.toList)).filter
    (fun c => !(isPySpace c || c = '-' || c = '_' || c = '(' || c = ')' ||
                c = '[' || c = ']' || c = '.'))

/-- Python `\w` (word character) with Unicode semantics approximated:
ASCII alphanumerics, underscore, and all non-ASCII characters (which covers
the Korean identifiers appearing in this program). -/
def isWordChar (c : Char) : Bool := c.isAlphanum || c = '_' || 0x80 ≤ c.toNat

/-- Maximal runs of word characters (`re.findall(r'\w+', s)`). -/
def wordRunsAux : List Char → List Char → List (List Char)
  | [], cur => if cur = [] then [] else [cur.reverse]
  | c :: rest, cur =>
    if isWordChar c then wordRunsAux rest (c :: cur)
    else if cur = [] then wordRunsAux rest []
    else cur.reverse :: wordRunsAux rest []

def wordSet (l : List Char) : List (List Char) := (wordRunsAux l []).dedup

/-- `ExcelProcessor.calculate_similarity`. -/
def calculate_similarity (s1 s2 : String) : Frac :=
  if s1 = "" ∨ s2 = "" then f0
  else
    let n1 := normalizeIdent s1
    let n2 := normalizeIdent s2
    if n1 = n2 then f1
    else
      let syn := check_synonyms s1 s2
      if fltB f0 syn then syn
      else if isSubChars n1 n2 || isSubChars n2 n1 then
        fmul (fq (min n1.length n2.length) (max n1.length n2.length)) (fq 9 10)
      else
        let basic := sequenceMatchScore n1 n2
        let w1 := wordSet (pyLower s1.toList)
        let w2 := wordSet (pyLower s2.toList)
        if w1 ≠ [] ∧ w2 ≠ [] then
          let common := (w1.filter (fun w => w ∈ w2)).length
          fadd (fmul basic (fq 7 10)) (fmul (fq common (max w1.length w2.length)) (fq 3 10))
        else basic

/-! ## Identifier matching (`match_sheets` / `match_columns`) -/

def defaultSheetThreshold : Frac := fq 6 10

def defaultColumnThreshold : Frac := fq 1 2

/-- One candidate comparison of the matcher loops: skip consumed candidates
(`used`, always empty for sheet matching) and keep the strictly better score
meeting the threshold. -/
def candStep (r : String) (used : List String) (thr : Frac)
    (acc : Option String × Frac) (t : String) : Option String × Frac :=
  if t ∈ used then acc
  else
    let sc := calculate_similarity r t
    if fltB acc.2 sc ∧ fleB thr sc then (some t, sc) else acc

/-- The inner candidate scan shared by both matchers: pick the candidate
with the strictly highest score meeting the threshold. -/
def bestCandidate (r : String) (targets : List String) (used : List String)
    (thr : Frac) : Option String × Frac :=
  targets.foldl (candStep r used thr) (Option.none, f0)

/-- Python-`dict` insertion: replace the value at an existing key in place,
otherwise append. -/
def dictInsert (l : List (String × String)) (k v : String) : List (String × String) :=
  if l.any (fun p => p.1 == k) then l.map (fun p => if p.1 = k then (k, v) else p)
  else l ++ [(k, v)]

/-- `ExcelProcessor.match_sheets`: candidates may be reused. -/
def match_sheets (refs targets : List String) (thr : Frac) : List (String × String) :=
  refs.foldl
    (fun acc r =>
      match (bestCandidate r targets [] thr).1 with
      | some t => dictInsert acc r t
      | Option.none => acc)
    []

/-- The reference-column loop of `match_columns`, carrying the mapping and
the consumed-candidate set. -/
def matchColumnsGo :
    List String → List String → Frac → List (String × String) → List String →
      List (String × String)
  | [], _, _, acc, _ => acc
  | r :: rs, targets, thr, acc, used =>
    match (bestCandidate r targets used thr).1 with
    | some t => matchColumnsGo rs targets thr (dictInsert acc r t) (t :: used)
    | Option.none => matchColumnsGo rs targets thr acc used

/-- `ExcelProcessor.match_columns`: each candidate is consumed at most once. -/
def match_columns (refs targets : List String) (thr : Frac) : List (String × String) :=
  matchColumnsGo refs targets thr [] []

/-! ## Controller: compatibility validation and the merge-run gate
(`MergeController._validate_files_compatibility` / `_merge_process`).
File reading is an excluded collaborator, so files enter the model as their
already-analysed structures (`read_file_structure` results). -/

structure SheetE where
  name : String
  columns : List String
deriving DecidableEq

structure FileE where
  fileName : String
  sheets : List SheetE
  errorMessage : Option String
deriving DecidableEq

/-- A compatibility issue recorded by `_validate_files_compatibility`
(the model keeps the issue kind and file name; the source formats these
into Korean message strings). -/
inductive CompatIssue where
  | analysisFailed (fileName : String) : CompatIssue
  | noSheetMatch (fileName : String) : CompatIssue
deriving DecidableEq

/-- The per-candidate body of the validation loop: a failed structure
analysis or an empty sheet mapping each contribute one issue. -/
def fileIssues (refNames : List String) (f : FileE) : List CompatIssue :=
  if f.errorMessage ≠ Option.none then [CompatIssue.analysisFailed f.fileName]
  else if match_sheets refNames (f.sheets.map SheetE.name) defaultSheetThreshold = [] then
    [CompatIssue.noSheetMatch f.fileName]
  else []

/-- `_validate_files_compatibility`: success flag and the recorded issues.
The result is successful exactly when the issue list is empty; a reference
analysis error fails immediately. -/
def validate_files_compatibility (ref : FileE) (files : List FileE) :
    Bool × List CompatIssue :=
  if ref.errorMessage ≠ Option.none then (false, [])
  else
    let refNames := ref.sheets.map SheetE.name
    let issues := (files.map (fileIssues refNames)).flatten
    (issues.isEmpty, issues)

/-- Outcome of the gating stages of `_merge_process` (stages 1–2).  The
later stages are abstracted into `proceedsPastValidation`: the claims
settled here only concern whether the run aborts before them. -/
inductive MergeStage where
  | failedRefError : MergeStage
  | failedRefNoSheets : MergeStage
  | failedCompatibility : MergeStage
  | proceedsPastValidation : MergeStage
deriving DecidableEq

/-- Stages 1–2 of `_merge_process`: reference analysis errors and missing
sheets raise; a failed compatibility validation raises
(`raise Exception("파일 호환성 검수 실패: ...")`); otherwise the run
continues into format extraction and merging. -/
def merge_run_gate (ref : FileE) (files : List FileE) : MergeStage :=
  if ref.errorMessage ≠ Option.none then MergeStage.failedRefError
  else if ref.sheets = [] then MergeStage.failedRefNoSheets
  else if (validate_files_compatibility ref files).1 then
    MergeStage.proceedsPastValidation
  else MergeStage.failedCompatibility

/-! ## Calendar arithmetic (proleptic Gregorian, day 0 = 1970-01-01).
`datetime` objects are modelled by their day number; the conversions are the
standard civil-calendar algorithms, executable over `Int`. -/

def isLeapYear (y : Int) : Bool := y % 4 = 0 && (y % 100 ≠ 0 || y % 400 = 0)

def daysInMonthF (y m : Int) : Int :=
  if m = 1 ∨ m = 3 ∨ m = 5 ∨ m = 7 ∨ m = 8 ∨ m = 10 ∨ m = 12 then 31
  else if m = 4 ∨ m = 6 ∨ m = 9 ∨ m = 11 then 30
  else if m = 2 then (if isLeapYear y then 29 else 28)
  else 0

/-- Validity of a `datetime(year, month, day)` construction. -/
def validYMD (y m d : Int) : Bool :=
  1 ≤ y && y ≤ 9999 && 1 ≤ m && m ≤ 12 && 1 ≤ d && d ≤ daysInMonthF y m

/-- Day number of a civil date (1970-01-01 = 0). -/
def daysFromCivil (y m d : Int) : Int :=
  let y2 := if m ≤ 2 then y - 1 else y
  let era := Int.fdiv y2 400
  let yoe := y2 - era * 400
  let mp := Int.emod (m + 9) 12
  let doy := Int.fdiv (153 * mp + 2) 5 + d - 1
  let doe := yoe * 365 + Int.fdiv yoe 4 - Int.fdiv yoe 100 + doy
  era * 146097 + doe - 719468

/-- Civil date of a day number (inverse of `daysFromCivil`). -/
def civilFromDays (z : Int) : Int × Int × Int :=
  let z2 := z + 719468
  let era := Int.fdiv z2 146097
  let doe := z2 - era * 146097
  let yoe := Int.fdiv (doe - Int.fdiv doe 1460 + Int.fdiv doe 36524 - Int.fdiv doe 146096) 365
  let y := yoe + era * 400
  let doy := doe - (365 * yoe + Int.fdiv yoe 4 - Int.fdiv yoe 100)
  let mp := Int.fdiv (5 * doy + 2) 153
  let d := doy - Int.fdiv (153 * mp + 2) 5 + 1
  let m := mp + (if mp < 10 then 3 else -9)
  (y + (if m ≤ 2 then 1 else 0), m, d)

/-! ## Rendering digits -/

def dch (n : Nat) : Char :=
  match n with
  | 0 => '0' | 1 => '1' | 2 => '2' | 3 => '3' | 4 => '4'
  | 5 => '5' | 6 => '6' | 7 => '7' | 8 => '8' | _ => '9'

/-- Two-digit zero-padded rendering (strftime `%m`, `%d`, ...). -/
def pad2 (z : Int) : List Char := [dch ((z.toNat / 10) % 10), dch (z.toNat % 10)]

/-- Four-digit zero-padded rendering (strftime `%Y`; platform strftime may
not zero-pad years below 1000 — irrelevant for the dates exercised here). -/
def pad4 (z : Int) : List Char :=
  [dch ((z.toNat / 1000) % 10), dch ((z.toNat / 100) % 10),
   dch ((z.toNat / 10) % 10), dch (z.toNat % 10)]

def natDigitsAux : Nat → Nat → List Char
  | 0, _ => []
  | fuel + 1, n => if n < 10 then [dch n] else natDigitsAux fuel (n / 10) ++ [dch (n % 10)]

/-- Decimal digits of a natural number (Python `str(n)` for `n ≥ 0`). -/
def natDigits (n : Nat) : List Char := natDigitsAux (n + 1) n

/-- Python `str` of an int. -/
def intStr (z : Int) : List Char :=
  if z < 0 then '-' :: natDigits z.natAbs else natDigits z.natAbs

/-- Least power of ten divisible by `d` (finite-decimal denominators). -/
def findPow10 (d : Nat) : Option Nat := (List.range 31).find? (fun k => 10 ^ k % d = 0)

/-- Python `str` of a float, for values with a finite decimal expansion
(always at least one fractional digit: `str(5.0) = "5.0"`); scientific
notation for extreme magnitudes is not modelled. -/
def floatRepr (q : Frac) : List Char :=
  match findPow10 q.d with
  | some k =>
    let scaled := q.n.natAbs * (10 ^ k / q.d)
    let ip := scaled / 10 ^ k
    let fp := scaled % 10 ^ k
    let raw := List.replicate (k - (natDigits fp).length) '0' ++ natDigits fp
    let stripped := (raw.reverse.dropWhile (fun c => c = '0')).reverse
    let fracDigits := if stripped = [] then ['0'] else stripped
    (if q.n < 0 then ['-'] else []) ++ natDigits ip ++ '.' :: fracDigits
  | Option.none => intStr q.n ++ '/' :: natDigits q.d

/-- Python `str` of a cell value (datetimes print as
`YYYY-MM-DD 00:00:00`, the midnight model). -/
def strOfCell : Cell → List Char
  | Cell.none => "None".toList
  | Cell.int z => intStr z
  | Cell.float q => floatRepr q
  | Cell.str s => s
  | Cell.dt day =>
    let p := civilFromDays day
    pad4 p.1 ++ '-' :: (pad2 p.2.1 ++ '-' :: (pad2 p.2.2 ++ " 00:00:00".toList))

/-! ## strptime / strftime for the format directives used by the source.
Directive token classes mirror CPython's `_strptime.TimeRE` regular
expressions; alternation order and backtracking follow the regex engine.
Matching is case-insensitive (`re.IGNORECASE`), and a whitespace run in
the format matches one or more input whitespace characters (`\s+`). -/

inductive FTok where
  | lit (c : Char) : FTok
  | sp : FTok
  | dY : FTok
  | dy : FTok
  | dm : FTok
  | dd : FTok
  | dH : FTok
  | dM : FTok
  | dS : FTok
  | dB : FTok
  | db : FTok
deriving DecidableEq

/-- Parsed time fields (strptime defaults 1900-01-01 00:00:00). -/
structure TimeVals where
  y : Nat
  m : Nat
  d : Nat
  hh : Nat
  mi : Nat
  ss : Nat
deriving DecidableEq

def TimeVals.default : TimeVals := ⟨1900, 1, 1, 0, 0, 0⟩

def TimeVals.setY (v : TimeVals) (x : Nat) : TimeVals := ⟨x, v.m, v.d, v.hh, v.mi, v.ss⟩

def TimeVals.setM (v : TimeVals) (x : Nat) : TimeVals := ⟨v.y, x, v.d, v.hh, v.mi, v.ss⟩

def TimeVals.setD (v : TimeVals) (x : Nat) : TimeVals := ⟨v.y, v.m, x, v.hh, v.mi, v.ss⟩

def TimeVals.setHH (v : TimeVals) (x : Nat) : TimeVals := ⟨v.y, v.m, v.d, x, v.mi, v.ss⟩

def TimeVals.setMI (v : TimeVals) (x : Nat) : TimeVals := ⟨v.y, v.m, v.d, v.hh, x, v.ss⟩

def TimeVals.setSS (v : TimeVals) (x : Nat) : TimeVals := ⟨v.y, v.m, v.d, v.hh, v.mi, x⟩

def digitVal (c : Char) : Nat := c.toNat - '0'.toNat

def digitsVal (l : List Char) : Nat := l.foldl (fun a c => a * 10 + digitVal c) 0

/-- Take exactly `n` leading digits. -/
def takeDigits : Nat → List Char → Option (List Char × List Char)
  | 0, l => some ([], l)
  | _ + 1, [] => Option.none
  | n + 1, c :: rest =>
    if c.isDigit then (takeDigits n rest).map (fun p => (c :: p.1, p.2))
    else Option.none

/-- `%Y` : `\d\d\d\d`. -/
def altY (l : List Char) : List (Nat × List Char) :=
  match takeDigits 4 l with
  | some p => [(digitsVal p.1, p.2)]
  | Option.none => []

/-- `%y` : `\d\d`, then the 69-pivot (`≤ 68 → 2000s`). -/
def alty (l : List Char) : List (Nat × List Char) :=
  match takeDigits 2 l with
  | some p =>
    let yy := digitsVal p.1
    [(if yy ≤ 68 then 2000 + yy else 1900 + yy, p.2)]
  | Option.none => []

/-- `%m` : `1[0-2]|0[1-9]|[1-9]`. -/
def altm (l : List Char) : List (Nat × List Char) :=
  (match l with
   | c1 :: c2 :: rest =>
     (if c1 = '1' ∧ '0' ≤ c2 ∧ c2 ≤ '2' then [(10 + digitVal c2, rest)] else []) ++
     (if c1 = '0' ∧ '1' ≤ c2 ∧ c2 ≤ '9' then [(digitVal c2, rest)] else [])
   | _ => []) ++
  (match l with
   | c :: rest => if '1' ≤ c ∧ c ≤ '9' then [(digitVal c, rest)] else []
   | [] => [])

/-- `%d` : `3[01]|[12]\d|0[1-9]|[1-9]| [1-9]`. -/
def altd (l : List Char) : List (Nat × List Char) :=
  (match l with
   | c1 :: c2 :: rest =>
     (if c1 = '3' ∧ '0' ≤ c2 ∧ c2 ≤ '1' then [(30 + digitVal c2, rest)] else []) ++
     (if ('1' ≤ c1 ∧ c1 ≤ '2') ∧ c2.isDigit then [(10 * digitVal c1 + digitVal c2, rest)] else []) ++
     (if c1 = '0' ∧ '1' ≤ c2 ∧ c2 ≤ '9' then [(digitVal c2, rest)] else [])
   | _ => []) ++
  (match l with
   | c :: rest => if '1' ≤ c ∧ c ≤ '9' then [(digitVal c, rest)] else []
   | [] => []) ++
  (match l with
   | c1 :: c2 :: rest => if c1 = ' ' ∧ '1' ≤ c2 ∧ c2 ≤ '9' then [(digitVal c2, rest)] else []
   | _ => [])

/-- `%H` : `2[0-3]|[0-1]\d|\d`. -/
def altH (l : List Char) : List (Nat × List Char) :=
  (match l with
   | c1 :: c2 :: rest =>
     (if c1 = '2' ∧ '0' ≤ c2 ∧ c2 ≤ '3' then [(20 + digitVal c2, rest)] else []) ++
     (if ('0' ≤ c1 ∧ c1 ≤ '1') ∧ c2.isDigit then [(10 * digitVal c1 + digitVal c2, rest)] else [])
   | _ => []) ++
  (match l with
   | c :: rest => if c.isDigit then [(digitVal c, rest)] else []
   | [] => [])

/-- `%M` : `[0-5]\d|\d`. -/
def altMin (l : List Char) : List (Nat × List Char) :=
  (match l with
   | c1 :: c2 :: rest =>
     if ('0' ≤ c1 ∧ c1 ≤ '5') ∧ c2.isDigit then [(10 * digitVal c1 + digitVal c2, rest)] else []
   | _ => []) ++
  (match l with
   | c :: rest => if c.isDigit then [(digitVal c, rest)] else []
   | [] => [])

/-- `%S` : `6[0-1]|[0-5]\d|\d`. -/
def altSec (l : List Char) : List (Nat × List Char) :=
  (match l with
   | c1 :: c2 :: rest =>
     (if c1 = '6' ∧ '0' ≤ c2 ∧ c2 ≤ '1' then [(60 + digitVal c2, rest)] else []) ++
     (if ('0' ≤ c1 ∧ c1 ≤ '5') ∧ c2.isDigit then [(10 * digitVal c1 + digitVal c2, rest)] else [])
   | _ => []) ++
  (match l with
   | c :: rest => if c.isDigit then [(digitVal c, rest)] else []
   | [] => [])

/-- English month names (C locale), full, in the length-descending order
CPython builds its alternation in. -/
def monthNamesFull : List (String × Nat) :=
  [("september", 9), ("february", 2), ("november", 11), ("december", 12),
   ("january", 1), ("october", 10), ("august", 8), ("march", 3),
   ("april", 4), ("june", 6), ("july", 7), ("may", 5)]

/-- Abbreviated month names (all length 3, so original order). -/
def monthNamesAbbr : List (String × Nat) :=
  [("jan", 1), ("feb", 2), ("mar", 3), ("apr", 4), ("may", 5), ("jun", 6),
   ("jul", 7), ("aug", 8), ("sep", 9), ("oct", 10), ("nov", 11), ("dec", 12)]

/-- Case-insensitive name alternation (`%B` / `%b`). -/
def altName (names : List (String × Nat)) (l : List Char) : List (Nat × List Char) :=
  names.filterMap (fun p =>
    let nl := p.1.toList
    if pyLower (l.take nl.length) = nl then some (p.2, l.drop nl.length)
    else Option.none)

/-- All ways one directive can match a prefix of the input, in the order the
regex engine tries them; each match yields a field update and the rest. -/
def tokMatches : FTok → List Char → List ((TimeVals → TimeVals) × List Char)
  | FTok.lit c, l =>
    match l with
    | d :: rest => if d.toLower = c.toLower then [(id, rest)] else []
    | [] => []
  | FTok.sp, l =>
    let run := (l.takeWhile isPySpace).length
    (List.range run).map (fun i => (id, l.drop (run - i)))
  | FTok.dY, l => (altY l).map (fun p => (fun v => v.setY p.1, p.2))
  | FTok.dy, l => (alty l).map (fun p => (fun v => v.setY p.1, p.2))
  | FTok.dm, l => (altm l).map (fun p => (fun v => v.setM p.1, p.2))
  | FTok.dd, l => (altd l).map (fun p => (fun v => v.setD p.1, p.2))
  | FTok.dH, l => (altH l).map (fun p => (fun v => v.setHH p.1, p.2))
  | FTok.dM, l => (altMin l).map (fun p => (fun v => v.setMI p.1, p.2))
  | FTok.dS, l => (altSec l).map (fun p => (fun v => v.setSS p.1, p.2))
  | FTok.dB, l => (altName monthNamesFull l).map (fun p => (fun v => v.setM p.1, p.2))
  | FTok.db, l => (altName monthNamesAbbr l).map (fun p => (fun v => v.setM p.1, p.2))

/-- Backtracking matcher: the whole input must be consumed (`_strptime`
rejects trailing data).  `fuel` is one per remaining token. -/
def parseToks : Nat → List FTok → List Char → TimeVals → Option TimeVals
  | 0, _, _, _ => Option.none
  | _ + 1, [], l, v => if l = [] then some v else Option.none
  | fuel + 1, t :: ts, l, v =>
    (tokMatches t l).findSome? (fun p => parseToks fuel ts p.2 (p.1 v))

/-- `datetime.strptime(s, fmt)`: regex match plus `datetime` construction
validity (month/day consistency, seconds below 60). -/
def strptimeFmt (toks : List FTok) (l : List Char) : Option TimeVals :=
  match parseToks (toks.length + 1) toks l TimeVals.default with
  | some v =>
    if validYMD v.y v.m v.d ∧ v.hh ≤ 23 ∧ v.mi ≤ 59 ∧ v.ss ≤ 59 then some v
    else Option.none
  | Option.none => Option.none

def fmtYmdDash : List FTok := [FTok.dY, FTok.lit '-', FTok.dm, FTok.lit '-', FTok.dd]

def fmtYmdSlash : List FTok := [FTok.dY, FTok.lit '/', FTok.dm, FTok.lit '/', FTok.dd]

def fmtMdySlash : List FTok := [FTok.dm, FTok.lit '/', FTok.dd, FTok.lit '/', FTok.dY]

def fmtDmySlash : List FTok := [FTok.dd, FTok.lit '/', FTok.dm, FTok.lit '/', FTok.dY]

def fmtYmdDot : List FTok := [FTok.dY, FTok.lit '.', FTok.dm, FTok.lit '.', FTok.dd]

def fmtMdyDot : List FTok := [FTok.dm, FTok.lit '.', FTok.dd, FTok.lit '.', FTok.dY]

def fmtDmyDot : List FTok := [FTok.dd, FTok.lit '.', FTok.dm, FTok.lit '.', FTok.dY]

def timeSuffix : List FTok :=
  [FTok.sp, FTok.dH, FTok.lit ':', FTok.dM, FTok.lit ':', FTok.dS]

/-- The `date_formats` list of `_normalize_dates`, in source order
(duplicate entries included). -/
def dateFormats : List (List FTok) :=
  [fmtYmdDash, fmtYmdSlash, fmtMdySlash, fmtDmySlash,
   fmtYmdDot, fmtMdyDot, fmtDmyDot,
   fmtYmdDash ++ timeSuffix, fmtYmdSlash ++ timeSuffix,
   fmtYmdDot ++ timeSuffix, fmtMdyDot ++ timeSuffix,
   [FTok.dY, FTok.lit '년', FTok.sp, FTok.dm, FTok.lit '월', FTok.sp, FTok.dd, FTok.lit '일'],
   [FTok.dY, FTok.lit '년', FTok.dm, FTok.lit '월', FTok.dd, FTok.lit '일'],
   [FTok.dy, FTok.lit '-', FTok.dm, FTok.lit '-', FTok.dd],
   [FTok.dy, FTok.lit '/', FTok.dm, FTok.lit '/', FTok.dd],
   [FTok.dm, FTok.lit '/', FTok.dd, FTok.lit '/', FTok.dy],
   [FTok.dd, FTok.lit '/', FTok.dm, FTok.lit '/', FTok.dy],
   [FTok.dy, FTok.lit '.', FTok.dm, FTok.lit '.', FTok.dd],
   [FTok.dm, FTok.lit '.', FTok.dd, FTok.lit '.', FTok.dy],
   [FTok.dd, FTok.lit '.', FTok.dm, FTok.lit '.', FTok.dy],
   fmtDmyDot,
   [FTok.dd, FTok.lit '.', FTok.dm, FTok.lit '.', FTok.dy],
   [FTok.dY, FTok.dm, FTok.dd],
   [FTok.dy, FTok.dm, FTok.dd],
   [FTok.dB, FTok.sp, FTok.dd, FTok.lit ',', FTok.sp, FTok.dY],
   [FTok.db, FTok.sp, FTok.dd, FTok.lit ',', FTok.sp, FTok.dY]]

/-- The target patterns a date column's format profile can hold: the five
candidates of `_analyze_date_format` (`%Y-%m-%d` is also the default of
`standard.get('format', '%Y-%m-%d')`). -/
inductive TargetFmt where
  | ymdDash : TargetFmt
  | ymdSlash : TargetFmt
  | mdySlash : TargetFmt
  | dmySlash : TargetFmt
  | ymdDot : TargetFmt
deriving DecidableEq

def TargetFmt.toks : TargetFmt → List FTok
  | TargetFmt.ymdDash => fmtYmdDash
  | TargetFmt.ymdSlash => fmtYmdSlash
  | TargetFmt.mdySlash => fmtMdySlash
  | TargetFmt.dmySlash => fmtDmySlash
  | TargetFmt.ymdDot => fmtYmdDot

/-- Capitalized month rendering for strftime `%B`/`%b` (unreachable from the
five target patterns, included for totality). -/
def monthFullCap (m : Int) : List Char :=
  match (monthNamesAbbr.find? (fun p => (p.2 : Int) = m)) with
  | some p => p.1.toList
  | Option.none => []

/-- `datetime.strftime` over the directive tokens, for a date `y-m-d`
(time fields are always midnight on the paths that format dates). -/
def fmtDate (toks : List FTok) (y m d : Int) : List Char :=
  toks.foldr
    (fun t acc =>
      (match t with
       | FTok.lit c => [c]
       | FTok.sp => [' ']
       | FTok.dY => pad4 y
       | FTok.dy => pad2 (Int.emod y 100)
       | FTok.dm => pad2 m
       | FTok.dd => pad2 d
       | FTok.dH => ['0', '0']
       | FTok.dM => ['0', '0']
       | FTok.dS => ['0', '0']
       | FTok.dB => monthFullCap m
       | FTok.db => monthFullCap m) ++ acc)
    []

/-- `DataNormalizer._is_target_format`: parse with the target pattern and
require the reformatted string to equal the input. -/
def is_target_format (l : List Char) (toks : List FTok) : Bool :=
  match strptimeFmt toks l with
  | some v => fmtDate toks (v.y : Int) (v.m : Int) (v.d : Int) == l
  | Option.none => false

/-! ## Regex fallback (`DataNormalizer._parse_date_with_regex`) -/

def digitRunsAux : List Char → List Char → List (List Char)
  | [], cur => if cur = [] then [] else [cur.reverse]
  | c :: rest, cur =>
    if c.isDigit then digitRunsAux rest (c :: cur)
    else if cur = [] then digitRunsAux rest []
    else cur.reverse :: digitRunsAux rest []

/-- `re.findall(r'\d+', s)`: maximal digit runs. -/
def digitRuns (l : List Char) : List (List Char) := digitRunsAux l []

/-- The year/month/day estimation of `_parse_date_with_regex` (the branch
on 4-digit-group position, else the 2-digit-year pivot). Returns `none`
when fewer than three digit runs exist. -/
def inferYMD (l : List Char) : Option (Nat × Nat × Nat) :=
  let ns := digitRuns l
  let n0 := ns.getD 0 []
  let n1 := ns.getD 1 []
  let n2 := ns.getD 2 []
  let nlast := (ns.getLast?).getD []
  if ns.length < 3 then Option.none
  else if n0.length = 4 then some (digitsVal n0, digitsVal n1, digitsVal n2)
  else if nlast.length = 4 then some (digitsVal n2, digitsVal n0, digitsVal n1)
  else if n1.length = 4 then some (digitsVal n1, digitsVal n2, digitsVal n0)
  else
    let yc := if nlast.length = 2 then digitsVal nlast else digitsVal n0
    let y := if yc < 50 then 2000 + yc else 1900 + yc
    if n0.length = 2 ∧ yc = digitsVal n0 then some (y, digitsVal n1, digitsVal n2)
    else some (y, digitsVal n0, digitsVal n1)

/-- `_parse_date_with_regex`: accept an estimated date only when month,
day and year pass the explicit bound checks (month 1–12, day 1–31, year
1900–2100) and the `datetime` construction itself succeeds. -/
def parse_date_with_regex (l : List Char) (target : List FTok) : Option (List Char) :=
  match inferYMD l with
  | some (y, m, d) =>
    if 1 ≤ m ∧ m ≤ 12 ∧ 1 ≤ d ∧ d ≤ 31 ∧ 1900 ≤ y ∧ y ≤ 2100 then
      if validYMD (y : Int) (m : Int) (d : Int) then
        some (fmtDate target (y : Int) (m : Int) (d : Int))
      else Option.none
    else Option.none
  | Option.none => Option.none

/-! ## Change records and the per-cell date normalizer -/

/-- One change note produced at a single cell (kind, original, new). -/
structure CellChange where
  changeType : String
  original : Cell
  newValue : Cell
deriving DecidableEq

/-- A `ChangeRecord` of the change log (wall-clock timestamp omitted). -/
structure ChangeRecord where
  fileName : String
  sheetName : String
  rowIndex : Int
  columnName : String
  changeType : String
  originalValue : Cell
  newValue : Cell
deriving DecidableEq

/-- The per-cell body of `_normalize_dates`: native datetimes reformat
directly; numerics in the serial range 1–2,958,465 convert through
`datetime(1900,1,1) + timedelta(days=v-2)`; strings short-circuit on the
already-canonical check, then try the pattern list, then the regex
fallback; a record is logged only when the stringified value changes. -/
def normalize_date_cell (target : TargetFmt) (c : Cell) : Cell × Option CellChange :=
  match c with
  | Cell.none => (Cell.none, Option.none)
  | Cell.dt day =>
    let p := civilFromDays day
    let conv := fmtDate target.toks p.1 p.2.1 p.2.2
    (Cell.str conv,
     if strOfCell c ≠ conv then some ⟨"date_format", c, Cell.str conv⟩ else Option.none)
  | Cell.int z =>
    if 1 ≤ z ∧ z ≤ 2958465 then
      let p := civilFromDays (daysFromCivil 1900 1 1 + (z - 2))
      let conv := fmtDate target.toks p.1 p.2.1 p.2.2
      (Cell.str conv,
       if strOfCell c ≠ conv then some ⟨"date_format", c, Cell.str conv⟩ else Option.none)
    else (c, Option.none)
  | Cell.float q =>
    if fleB f1 q ∧ fleB q (Frac.ofInt 2958465) then
      let p := civilFromDays (daysFromCivil 1900 1 1 + ffloor (fsub q (Frac.ofInt 2)))
      let conv := fmtDate target.toks p.1 p.2.1 p.2.2
      (Cell.str conv,
       if strOfCell c ≠ conv then some ⟨"date_format", c, Cell.str conv⟩ else Option.none)
    else (c, Option.none)
  | Cell.str s =>
    let vs := pyStrip s
    if vs = [] then (c, Option.none)
    else
      let conv : Option (List Char) :=
        if is_target_format vs target.toks then some vs
        else
          match dateFormats.findSome? (fun f => strptimeFmt f vs) with
          | some v => some (fmtDate target.toks (v.y : Int) (v.m : Int) (v.d : Int))
          | Option.none => parse_date_with_regex vs target.toks
      match conv with
      | some cv =>
        (Cell.str cv, if s ≠ cv then some ⟨"date_format", c, Cell.str cv⟩ else Option.none)
      | Option.none => (c, Option.none)

/-! ## Number normalization (`DataNormalizer._normalize_numbers`) -/

/-- Number-format profile (`decimal_places`, `thousands_separator`; the
separator flag is read but unused by `_normalize_numbers`). -/
structure NumStd where
  decimalPlaces : Int
  thousandsSep : Bool
deriving DecidableEq

def parseExpPart (l : List Char) : Option (Int × List Char) :=
  let sgnAndRest : Int × List Char :=
    match l with
    | '+' :: r => (1, r)
    | '-' :: r => (-1, r)
    | _ => (1, l)
  let ds := sgnAndRest.2.takeWhile Char.isDigit
  if ds = [] then Option.none
  else some (sgnAndRest.1 * (digitsVal ds : Int), sgnAndRest.2.dropWhile Char.isDigit)

def applyExp (sg : Int) (ds : List Char) (fracLen : Nat) (e : Int) : Frac :=
  let base := mkFrac (sg * (digitsVal ds : Int)) (((10 ^ fracLen : Nat)) : Int)
  if 0 ≤ e then fmul base ⟨((10 ^ e.toNat : Nat) : Int), 1⟩
  else fdivF base ⟨((10 ^ (-e).toNat : Nat) : Int), 1⟩

def finishFloat (sg : Int) (ds : List Char) (fracLen : Nat) : List Char → Option Frac
  | [] => some (applyExp sg ds fracLen 0)
  | c :: r =>
    if c = 'e' ∨ c = 'E' then
      match parseExpPart r with
      | some p => if p.2 = [] then some (applyExp sg ds fracLen p.1) else Option.none
      | Option.none => Option.none
    else Option.none

/-- Python `float(str)`: optional surrounding whitespace, sign, digits with
an optional decimal point and exponent.  (`inf`/`nan` and digit-group
underscores are not modelled.) -/
def parsePyFloat (s : List Char) : Option Frac :=
  let t := pyStrip s
  let sgnAndRest : Int × List Char :=
    match t with
    | '+' :: r => (1, r)
    | '-' :: r => (-1, r)
    | _ => (1, t)
  let sg := sgnAndRest.1
  let t1 := sgnAndRest.2
  let ip := t1.takeWhile Char.isDigit
  let r1 := t1.dropWhile Char.isDigit
  match r1 with
  | '.' :: r =>
    let fp := r.takeWhile Char.isDigit
    if ip = [] ∧ fp = [] then Option.none
    else finishFloat sg (ip ++ fp) fp.length (r.dropWhile Char.isDigit)
  | _ =>
    if ip = [] then Option.none
    else finishFloat sg ip 0 r1

/-- The per-cell body of `_normalize_numbers`: strings lose their commas and
must parse as floats; ints and floats are re-rounded; everything convertible
is rounded to the profile's decimal places and stored as a float; a record
is logged only when the stringified value changes.  Non-convertible values
(including datetimes, which match neither `str` nor `int/float`) pass
through silently. -/
def normalize_number_cell (std : NumStd) (c : Cell) : Cell × Option CellChange :=
  match c with
  | Cell.none => (c, Option.none)
  | Cell.str s =>
    match parsePyFloat (s.filter (fun ch => ch ≠ ',')) with
    | some q0 =>
      let conv := if 0 ≤ std.decimalPlaces then roundToPlaces q0 std.decimalPlaces.toNat else q0
      (Cell.float conv,
       if strOfCell c ≠ floatRepr conv then some ⟨"number_format", c, Cell.float conv⟩
       else Option.none)
    | Option.none => (c, Option.none)
  | Cell.int z =>
    let conv := if 0 ≤ std.decimalPlaces then roundToPlaces (Frac.ofInt z) std.decimalPlaces.toNat
                else Frac.ofInt z
    (Cell.float conv,
     if strOfCell c ≠ floatRepr conv then some ⟨"number_format", c, Cell.float conv⟩
     else Option.none)
  | Cell.float q =>
    let conv := if 0 ≤ std.decimalPlaces then roundToPlaces q std.decimalPlaces.toNat else q
    (Cell.float conv,
     if strOfCell c ≠ floatRepr conv then some ⟨"number_format", c, Cell.float conv⟩
     else Option.none)
  | Cell.dt d => (Cell.dt d, Option.none)

/-! ## Text normalization and format analysis
(`DataNormalizer._normalize_text` / `_analyze_text_format`) -/

/-- Text-format profile (`trim_whitespace`, `normalize_spaces`, `case`). -/
structure TextStd where
  trimWhitespace : Bool
  normalizeSpaces : Bool
  caseRule : Option String
deriving DecidableEq

/-- ASCII cased character (model of Python's cased-character predicate). -/
def isCased (c : Char) : Bool := c.isAlpha

/-- Python `str.isupper`. -/
def pyIsUpper (l : List Char) : Bool :=
  l.any isCased && l.all (fun c => !isCased c || c.isUpper)

/-- Python `str.islower`. -/
def pyIsLower (l : List Char) : Bool :=
  l.any isCased && l.all (fun c => !isCased c || c.isLower)

def pyIsTitleAux : List Char → Bool → Bool
  | [], _ => true
  | c :: rest, prevCased =>
    if c.isUpper then (if prevCased then false else pyIsTitleAux rest true)
    else if c.isLower then (if prevCased then pyIsTitleAux rest true else false)
    else pyIsTitleAux rest false

/-- Python `str.istitle`. -/
def pyIsTitle (l : List Char) : Bool := l.any isCased && pyIsTitleAux l false

/-- `re.sub(r'\s+', ' ', s)`: collapse whitespace runs to single spaces. -/
def collapseSpacesAux : List Char → Bool → List Char
  | [], _ => []
  | c :: rest, prevSpace =>
    if isPySpace c then
      if prevSpace then collapseSpacesAux rest true
      else ' ' :: collapseSpacesAux rest true
    else c :: collapseSpacesAux rest false

def collapseSpaces (l : List Char) : List Char := collapseSpacesAux l false

def pyUpperStr (l : List Char) : List Char := l.map Char.toUpper

def pyTitleAux : List Char → Bool → List Char
  | [], _ => []
  | c :: rest, prevCased =>
    if isCased c then
      (if prevCased then c.toLower else c.toUpper) :: pyTitleAux rest true
    else c :: pyTitleAux rest false

/-- Python `str.title` (ASCII model). -/
def pyTitle (l : List Char) : List Char := pyTitleAux l false

/-- The per-cell body of `_normalize_text`: stringify, then trim, collapse
inner whitespace and apply the case rule as the profile dictates; the result
is always stored; a record is logged when the stringified value changed. -/
def normalize_text_cell (std : TextStd) (c : Cell) : Cell × Option CellChange :=
  match c with
  | Cell.none => (c, Option.none)
  | _ =>
    let s0 := strOfCell c
    let s1 := if std.trimWhitespace then pyStrip s0 else s0
    let s2 := if std.normalizeSpaces then collapseSpaces s1 else s1
    let s3 :=
      match std.caseRule with
      | some r =>
        if r = "upper" then pyUpperStr s2
        else if r = "lower" then pyLower s2
        else if r = "title" then pyTitle s2
        else s2
      | Option.none => s2
    (Cell.str s3,
     if s0 ≠ s3 then some ⟨"text_format", c, Cell.str s3⟩ else Option.none)

/-- The case-pattern transition of `_analyze_text_format` for one string
sample (`case_pattern` starts as `None`; `'mixed'` means "give up"). -/
def caseStep (pat : Option String) (s : List Char) : Option String :=
  if pyIsUpper s ∧ pat ≠ some "mixed" then
    (if pat = Option.none then some "upper" else some "mixed")
  else if pyIsLower s ∧ pat ≠ some "mixed" then
    (if pat = Option.none then some "lower" else some "mixed")
  else if pyIsTitle s ∧ pat ≠ some "mixed" then
    (if pat = Option.none then some "title" else some "mixed")
  else some "mixed"

/-- `re.search(r'\s{2,}', s)`: two consecutive whitespace characters. -/
def hasDoubleSpace (l : List Char) : Bool :=
  (l.zip l.tail).any (fun p => isPySpace p.1 && isPySpace p.2)

/-- `DataNormalizer._analyze_text_format`: scan the samples for
leading/trailing whitespace, inner double spaces, and a case pattern;
non-string samples are skipped entirely; a final `'mixed'` pattern yields
no case rule. -/
def analyze_text_format (samples : List Cell) : TextStd :=
  let r := samples.foldl
    (fun (st : Bool × Bool × Option String) c =>
      match c with
      | Cell.str s =>
        (st.1 || s ≠ pyStrip s, st.2.1 || hasDoubleSpace s, caseStep st.2.2 s)
      | _ => st)
    (false, false, Option.none)
  ⟨r.1, r.2.1, if r.2.2 = some "mixed" then Option.none else r.2.2⟩

/-! ## Column and DataFrame normalization (`DataNormalizer.normalize_data`)
A DataFrame is an ordered list of named columns of equal length. -/

/-- A column's format profile, tagged by type (`standard['type']`). -/
inductive Standard where
  | number (std : NumStd) : Standard
  | date (std : TargetFmt) : Standard
  | text (std : TextStd) : Standard
  | other : Standard
deriving DecidableEq

/-- `_normalize_column` dispatch on the profile type. -/
def normalize_cell_by (std : Standard) (c : Cell) : Cell × Option CellChange :=
  match std with
  | Standard.number n => normalize_number_cell n c
  | Standard.date t => normalize_date_cell t c
  | Standard.text t => normalize_text_cell t c
  | Standard.other => (c, Option.none)

def runColumnAux (f : Cell → Cell × Option CellChange)
    (fileName sheetName colName : String) :
    List Cell → Nat → List Cell × List ChangeRecord
  | [], _ => ([], [])
  | c :: cs, idx =>
    let r := f c
    let rest := runColumnAux f fileName sheetName colName cs (idx + 1)
    (r.1 :: rest.1,
     (match r.2 with
      | some ch =>
        [⟨fileName, sheetName, (idx : Int), colName, ch.changeType, ch.original, ch.newValue⟩]
      | Option.none => []) ++ rest.2)

/-- Normalize one column, producing the new cells and the appended
change records in row order. -/
def normalize_column (std : Standard) (fileName sheetName colName : String)
    (cells : List Cell) : List Cell × List ChangeRecord :=
  runColumnAux (normalize_cell_by std) fileName sheetName colName cells 0

def lookupStr {α : Type} (l : List (String × α)) (k : String) : Option α :=
  (l.find? (fun p => p.1 == k)).map Prod.snd

def dfRowCount (df : List (String × List Cell)) : Nat :=
  match df with
  | [] => 0
  | col :: _ => col.2.length

def colAt (col : List Cell) (i : Nat) : Cell := col.getD i Cell.none

/-- `DataNormalizer._clean_data`: drop rows whose cells are all `None`,
logging one `remove_empty_rows` record when the row count changed. -/
def cleanData (fileName sheetName : String) (df : List (String × List Cell))
    (logs : List ChangeRecord) : List (String × List Cell) × List ChangeRecord :=
  let n := dfRowCount df
  let keep := (List.range n).filter (fun i => df.any (fun col => colAt col.2 i ≠ Cell.none))
  let cleaned := df.map (fun col => (col.1, keep.map (fun i => colAt col.2 i)))
  if keep.length ≠ n then
    (cleaned,
     logs ++ [⟨fileName, sheetName, -1, "ALL_COLUMNS", "remove_empty_rows",
               Cell.str (natDigits n ++ "행".toList),
               Cell.str (natDigits keep.length ++ "행".toList)⟩])
  else (cleaned, logs)

/-- `DataNormalizer.normalize_data`: its first statement is
`self.change_logs = []`, so the incoming normalizer log state `logsIn` is
DISCARDED and the returned state is rebuilt from empty. -/
def normalize_data (logsIn : List ChangeRecord)
    (standards : List (String × Standard)) (fileName sheetName : String)
    (df : List (String × List Cell)) : List (String × List Cell) × List ChangeRecord :=
  let _ := logsIn
  let step := df.foldl
    (fun (acc : List (String × List Cell) × List ChangeRecord) col =>
      match lookupStr standards col.1 with
      | some std =>
        let r := normalize_column std fileName sheetName col.1 col.2
        (acc.1 ++ [(col.1, r.1)], acc.2 ++ r.2)
      | Option.none => (acc.1 ++ [col], acc.2))
    ([], [])
  cleanData fileName sheetName step.1 step.2

/-! ## Per-candidate processing (`MergeController._process_merge_file`).
Sheet data (the `read_sheet_data` results) enters as an input, keyed by the
candidate's sheet names. -/

/-- The sheet-mapping log loop: one `sheet_mapping` record per pair whose
names differ (`original_value` = candidate name, `new_value` = reference
name). -/
def sheetMappingRecs (fileName : String) (mappings : List (String × String)) :
    List ChangeRecord :=
  mappings.foldl
    (fun acc p =>
      if p.1 ≠ p.2 then
        acc ++ [⟨fileName, p.1, -1, "SHEET_NAME", "sheet_mapping",
                 Cell.str p.2.toList, Cell.str p.1.toList⟩]
      else acc)
    []

/-- The column-mapping log loop. -/
def columnMappingRecs (fileName refSheetName : String)
    (mappings : List (String × String)) : List ChangeRecord :=
  mappings.foldl
    (fun acc p =>
      if p.1 ≠ p.2 then
        acc ++ [⟨fileName, refSheetName, -1, p.1, "column_mapping",
                 Cell.str p.2.toList, Cell.str p.1.toList⟩]
      else acc)
    []

/-- `MergeController._align_columns`: reorder to the reference column
order, null-filling unmapped or missing columns. -/
def align_columns (df : List (String × List Cell)) (refCols : List String)
    (mappings : List (String × String)) : List (String × List Cell) :=
  let n := dfRowCount df
  refCols.map (fun rc =>
    match lookupStr mappings rc with
    | some src =>
      match lookupStr df src with
      | some col => (rc, col)
      | Option.none => (rc, List.replicate n Cell.none)
    | Option.none => (rc, List.replicate n Cell.none))

/-- pandas `df.empty`: no columns or no rows. -/
def dfIsEmpty (df : List (String × List Cell)) : Bool :=
  df.isEmpty || dfRowCount df = 0

/-- `MergeController._process_merge_file` over one candidate file.  The
normalizer's change-log state threads through explicitly: mapping records
append to it, and each `normalize_data` call REPLACES it with the log that
call rebuilt from empty (the `self.change_logs = []` reset).  Returns the
per-reference-sheet result frames and the final normalizer log state. -/
def process_merge_file (refSheets : List SheetE)
    (formatStandards : List (String × List (String × Standard)))
    (fileName : String) (candSheetNames : List String)
    (candData : List (String × List (String × List Cell)))
    (logs0 : List ChangeRecord) :
    List (String × List (String × List Cell)) × List ChangeRecord :=
  let refNames := refSheets.map SheetE.name
  let sheetMappings := match_sheets refNames candSheetNames defaultSheetThreshold
  let logs1 := logs0 ++ sheetMappingRecs fileName sheetMappings
  sheetMappings.foldl
    (fun (acc : List (String × List (String × List Cell)) × List ChangeRecord) mp =>
      match refSheets.find? (fun s => s.name == mp.1) with
      | Option.none => acc
      | some refSheet =>
        match lookupStr candData mp.2 with
        | Option.none => acc
        | some df =>
          if dfIsEmpty df then acc
          else
            let colMappings :=
              match_columns refSheet.columns (df.map Prod.fst) defaultColumnThreshold
            let logsPre := acc.2 ++ columnMappingRecs fileName mp.1 colMappings
            let aligned := align_columns df refSheet.columns colMappings
            let r := normalize_data logsPre ((lookupStr formatStandards mp.1).getD [])
              fileName mp.1 aligned
            let ndf := r.1 ++
              [("_source_file", List.replicate (dfRowCount r.1) (Cell.str fileName.toList))]
            (acc.1 ++ [(mp.1, ndf)], r.2))
    ([], logs1)

/-! ## Concrete inputs used by the claim instances -/

/-- Concrete reference file whose analysis succeeds. -/
def refEx : FileE := ⟨"reference.xlsx", [⟨"Employees", ["이름", "부서"]⟩], Option.none⟩

/-- Concrete candidate file that analyses fine but whose single sheet name
matches nothing in the reference. -/
def candEx : FileE := ⟨"candidate.xlsx", [⟨"zzzz", ["qq"]⟩], Option.none⟩

/-- Concrete candidate file with no usable sheets (and no analysis error),
so sheet matching trivially returns no pairs. -/
def candNoSheets : FileE := ⟨"empty.xlsx", [], Option.none⟩

/-! ## Theorems -/

lemma rowScore_skip {row : List Cell} (h : (row.filter (fun c => !c.isNone)).length < 2)
    (idx : Nat) : rowScore row idx = Option.none := by
  unfold rowScore
  by_cases ha : row.any Cell.truthy
  · simp [ha, h]
  · simp [ha]

lemma detectLoop_all_skip {rows : List (List Cell)}
    (h : ∀ row ∈ rows, ∀ idx, rowScore row idx = Option.none) :
    ∀ idx best bestScore, detectLoop rows idx best bestScore = (best, bestScore) := by
  induction rows with
  | nil => intro idx best bestScore; rfl
  | cons r rs ih =>
    intro idx best bestScore
    have hr := h r (List.mem_cons_self r rs) idx
    unfold detectLoop
    rw [hr]
    exact ih (fun row hm idx => h row (List.mem_cons_of_mem r hm) idx) _ _ _

/-- C6: for every 2-D grid in which every row contains fewer than two
non-empty cells, header-row detection returns `-1` ("no header found"). -/
theorem C6_no_header_when_sparse (data : List (List Cell))
    (h : ∀ row ∈ data, (row.filter (fun c => !c.isNone)).length < 2) :
    detect_header_row data = -1 := by
  unfold detect_header_row
  by_cases hd : data.isEmpty
  · simp [hd]
  · have hall : ∀ row ∈ data.take 10, ∀ idx, rowScore row idx = Option.none := by
      intro row hm idx
      exact rowScore_skip (h row (List.take_subset 10 data hm)) idx
    simp only [hd, if_false]
    rw [detectLoop_all_skip hall 0 (-1) f0]
    rfl

/-- C6 witness: a concrete sparse grid (one lone text cell, an empty row, a
row with a single zero among blanks) is rejected by header detection. -/
theorem C6_witness :
    (∀ row ∈ [[Cell.str ['a']], ([] : List Cell), [Cell.int 0, Cell.none]],
        (row.filter (fun c => !c.isNone)).length < 2) ∧
    detect_header_row [[Cell.str ['a']], [], [Cell.int 0, Cell.none]] = -1 := by
  refine ⟨by decide, ?_⟩
  exact C6_no_header_when_sparse _ (by decide)

/-- C5: the similarity function returns exactly 1 on any non-empty string
paired with itself, and 0 whenever the first argument is empty. -/
theorem C5_similarity_refl_and_empty (a x : String) (ha : a ≠ "") :
    calculate_similarity a a = f1 ∧ calculate_similarity "" x = f0 := by
  constructor
  · unfold calculate_similarity
    rw [if_neg (by simp [ha])]
    simp
  · unfold calculate_similarity
    rw [if_pos (Or.inl rfl)]

/-- C5 witness: concrete instance at `a = "abc"`, `x = "급여"`. -/
theorem C5_witness :
    ("abc" : String) ≠ "" ∧
      (calculate_similarity "abc" "abc" = f1 ∧ calculate_similarity "" "급여" = f0) :=
  ⟨by decide, C5_similarity_refl_and_empty "abc" "급여" (by decide)⟩

lemma candStep_not_used {r : String} {used : List String} {thr : Frac}
    {acc : Option String × Frac} {t : String}
    (h : ∀ x, acc.1 = some x → x ∉ used) :
    ∀ x, (candStep r used thr acc t).1 = some x → x ∉ used := by
  intro x hx
  unfold candStep at hx
  by_cases ht : t ∈ used
  · exact h x (by simpa [ht] using hx)
  · simp only [ht, if_false] at hx
    by_cases hc : fltB acc.2 (calculate_similarity r t) ∧ fleB thr (calculate_similarity r t)
    · simp only [hc, if_true] at hx
      cases hx
      exact ht
    · exact h x (by simpa [hc] using hx)

lemma foldl_candStep_not_used {r : String} {used : List String} {thr : Frac} :
    ∀ (targets : List String) (st : Option String × Frac),
      (∀ x, st.1 = some x → x ∉ used) →
      ∀ x, (targets.foldl (candStep r used thr) st).1 = some x → x ∉ used := by
  intro targets
  induction targets with
  | nil => intro st h x hx; exact h x hx
  | cons t ts ih =>
    intro st h x hx
    exact ih (candStep r used thr st t) (candStep_not_used h) x hx

lemma bestCandidate_not_used {r : String} {targets used : List String} {thr : Frac}
    {t : String} (h : (bestCandidate r targets used thr).1 = some t) : t ∉ used :=
  foldl_candStep_not_used targets (Option.none, f0) (by intro x hx; cases hx) t h

lemma dictInsert_keys (l : List (String × String)) (k v : String) :
    (dictInsert l k v).map Prod.fst =
      if l.any (fun p => p.1 == k) then l.map Prod.fst else l.map Prod.fst ++ [k] := by
  unfold dictInsert
  by_cases h : l.any (fun p => p.1 == k)
  · simp only [h, if_true, List.map_map]
    apply List.map_congr_left
    intro p _
    by_cases hp : p.1 = k <;> simp [hp]
  · simp [h]

lemma replaceVals_subset (k v : String) (l : List (String × String)) :
    ∀ x ∈ (l.map (fun p => if p.1 = k then (k, v) else p)).map Prod.snd,
      x = v ∨ x ∈ l.map Prod.snd := by
  intro x hx
  rcases List.mem_map.mp hx with ⟨q, hq, hqx⟩
  rcases List.mem_map.mp hq with ⟨p, hp, hpe⟩
  by_cases hpk : p.1 = k
  · left; rw [← hqx, ← hpe]; simp [hpk]
  · right
    rw [← hqx, ← hpe]
    simp only [hpk, if_false]
    exact List.mem_map_of_mem Prod.snd hp

lemma dictInsert_vals_subset (l : List (String × String)) (k v : String) :
    ∀ x ∈ (dictInsert l k v).map Prod.snd, x = v ∨ x ∈ l.map Prod.snd := by
  intro x hx
  unfold dictInsert at hx
  by_cases h : l.any (fun p => p.1 == k) = true
  · rw [if_pos h] at hx
    exact replaceVals_subset k v l x hx
  · rw [if_neg h] at hx
    simp only [List.map_append, List.mem_append, List.map_cons,
      List.map_nil, List.mem_singleton] at hx
    rcases hx with hx | hx
    · right; exact hx
    · left; exact hx

lemma replaceVals_nodup (k v : String) :
    ∀ (l : List (String × String)),
      (l.map Prod.fst).Nodup → (l.map Prod.snd).Nodup → v ∉ l.map Prod.snd →
      ((l.map (fun p => if p.1 = k then (k, v) else p)).map Prod.snd).Nodup := by
  intro l
  induction l with
  | nil => intro _ _ _; simp
  | cons p ps ih =>
    intro hk hv hnv
    simp only [List.map_cons, List.nodup_cons] at hk hv
    simp only [List.map_cons, List.mem_cons, not_or] at hnv
    obtain ⟨hnv1, hnv2⟩ := hnv
    by_cases hpk : p.1 = k
    · have htail : ps.map (fun q => if q.1 = k then (k, v) else q) = ps := by
        conv_rhs => rw [← List.map_id ps]
        apply List.map_congr_left
        intro q hq
        have hqk : q.1 ≠ k := by
          intro hqk
          have hqp : q.1 = p.1 := hqk.trans hpk.symm
          exact hk.1 (hqp ▸ List.mem_map_of_mem Prod.fst hq)
        simp [hqk]
      simp only [List.map_cons, hpk, if_true, htail, List.nodup_cons]
      exact ⟨hnv2, hv.2⟩
    · simp only [List.map_cons, hpk, if_false, List.nodup_cons]
      refine ⟨?_, ih hk.2 hv.2 hnv2⟩
      intro hmem
      rcases replaceVals_subset k v ps p.2 hmem with h | h
      · exact hnv1 h.symm
      · exact hv.1 h

lemma dictInsert_vals_nodup {l : List (String × String)} {k v : String}
    (hk : (l.map Prod.fst).Nodup) (hv : (l.map Prod.snd).Nodup)
    (hnv : v ∉ l.map Prod.snd) : ((dictInsert l k v).map Prod.snd).Nodup := by
  unfold dictInsert
  by_cases h : l.any (fun p => p.1 == k) = true
  · rw [if_pos h]
    exact replaceVals_nodup k v l hk hv hnv
  · rw [if_neg h]
    simp only [List.map_append, List.map_cons, List.map_nil]
    rw [List.nodup_append]
    refine ⟨hv, List.nodup_singleton v, ?_⟩
    intro a ha hb
    rw [List.mem_singleton] at hb
    exact hnv (hb ▸ ha)

lemma dictInsert_keys_nodup {l : List (String × String)} {k v : String}
    (hk : (l.map Prod.fst).Nodup) : ((dictInsert l k v).map Prod.fst).Nodup := by
  rw [dictInsert_keys]
  by_cases h : l.any (fun p => p.1 == k) = true
  · rw [if_pos h]
    exact hk
  · rw [if_neg h]
    have hknotin : k ∉ l.map Prod.fst := by
      intro hmem
      rcases List.mem_map.mp hmem with ⟨p, hp, hpe⟩
      have : l.any (fun p => p.1 == k) = true := by
        refine List.any_eq_true.mpr ⟨p, hp, ?_⟩
        simp [hpe]
      simp [this] at h
    rw [List.nodup_append]
    refine ⟨hk, List.nodup_singleton k, ?_⟩
    intro a ha hb
    rw [List.mem_singleton] at hb
    exact hknotin (hb ▸ ha)

lemma matchColumnsGo_vals_nodup :
    ∀ (rs targets : List String) (thr : Frac) (acc : List (String × String))
      (used : List String),
      (acc.map Prod.fst).Nodup →
      (acc.map Prod.snd).Nodup →
      (∀ v ∈ acc.map Prod.snd, v ∈ used) →
      ((matchColumnsGo rs targets thr acc used).map Prod.snd).Nodup := by
  intro rs
  induction rs with
  | nil => intro targets thr acc used _ hv _; exact hv
  | cons r rest ih =>
    intro targets thr acc used hk hv hsub
    unfold matchColumnsGo
    cases hbc : (bestCandidate r targets used thr).1 with
    | none => exact ih targets thr acc used hk hv hsub
    | some t =>
      have hnt : t ∉ used := bestCandidate_not_used hbc
      have hnv : t ∉ acc.map Prod.snd := fun hmem => hnt (hsub t hmem)
      refine ih targets thr (dictInsert acc r t) (t :: used)
        (dictInsert_keys_nodup hk) (dictInsert_vals_nodup hk hv hnv) ?_
      intro v hvmem
      rcases dictInsert_vals_subset acc r t v hvmem with h | h
      · exact h ▸ List.mem_cons_self t used
      · exact List.mem_cons_of_mem t (hsub v h)

lemma match_columns_vals_nodup (refs targets : List String) (thr : Frac) :
    ((match_columns refs targets thr).map Prod.snd).Nodup :=
  matchColumnsGo_vals_nodup refs targets thr [] [] (by simp) (by simp) (by simp)

/-- C4: column matching is injective — no two distinct reference columns are
mapped to the same candidate column — while sheet matching has no such
exclusivity: the distinct reference sheets "AB" and "A B" both map to the
candidate sheet "ab". -/
theorem C4_column_matching_injective_sheet_not (refs targets : List String)
    (thr : Frac) (r1 r2 c : String)
    (h1 : (r1, c) ∈ match_columns refs targets thr)
    (h2 : (r2, c) ∈ match_columns refs targets thr) :
    r1 = r2 ∧
      match_sheets ["AB", "A B"] ["ab"] defaultSheetThreshold =
        [("AB", "ab"), ("A B", "ab")] := by
  constructor
  · have hnd := match_columns_vals_nodup refs targets thr
    have := List.inj_on_of_nodup_map hnd h1 h2 rfl
    exact congrArg Prod.fst this
  · rfl

/-- C4 witness: concrete instantiation of the injectivity statement at a
single-column match, with both hypotheses discharged by evaluation. -/
theorem C4_witness :
    (("이름", "이름") ∈ match_columns ["이름"] ["이름"] defaultColumnThreshold) ∧
      ("이름" : String) = "이름" ∧
      match_sheets ["AB", "A B"] ["ab"] defaultSheetThreshold =
        [("AB", "ab"), ("A B", "ab")] := by
  have h : ("이름", "이름") ∈ match_columns ["이름"] ["이름"] defaultColumnThreshold := by
    rw [show match_columns ["이름"] ["이름"] defaultColumnThreshold =
        [("이름", "이름")] from rfl]
    exact List.mem_singleton.mpr rfl
  have hmain := C4_column_matching_injective_sheet_not ["이름"] ["이름"]
    defaultColumnThreshold "이름" "이름" "이름" h h
  exact ⟨h, hmain.1, hmain.2⟩

/-- C1 counterexample: the reference file analyses successfully and the sole
candidate merely has zero matched sheets, yet the run aborts at the
compatibility-validation stage (the issue is recorded AND
`_merge_process` raises), contradicting the claim that such a run proceeds. -/
theorem C1_counterexample :
    refEx.errorMessage = Option.none ∧ refEx.sheets ≠ [] ∧
      (validate_files_compatibility refEx [candEx]).2 =
        [CompatIssue.noSheetMatch "candidate.xlsx"] ∧
      merge_run_gate refEx [candEx] = MergeStage.failedCompatibility ∧
      merge_run_gate refEx [candEx] ≠ MergeStage.proceedsPastValidation := by
  refine ⟨rfl, by decide, rfl, rfl, by decide⟩

/-- C1 amended: for every run in which the reference file analyses
successfully, a candidate file whose sheet-name matching yields zero matched
sheets is recorded as a compatibility issue AND makes compatibility
validation fail, so the run aborts at the compatibility-validation stage;
the run therefore fails not only when reference analysis fails but whenever
any candidate has a compatibility issue. -/
theorem C1_zero_match_aborts (ref : FileE) (files : List FileE) (f : FileE)
    (href : ref.errorMessage = Option.none)
    (hsheets : ref.sheets ≠ [])
    (hf : f ∈ files)
    (hferr : f.errorMessage = Option.none)
    (hmatch : match_sheets (ref.sheets.map SheetE.name) (f.sheets.map SheetE.name)
        defaultSheetThreshold = []) :
    CompatIssue.noSheetMatch f.fileName ∈ (validate_files_compatibility ref files).2 ∧
      merge_run_gate ref files = MergeStage.failedCompatibility := by
  have hrefne : ¬ ref.errorMessage ≠ Option.none := by simp [href]
  have hissue : fileIssues (ref.sheets.map SheetE.name) f =
      [CompatIssue.noSheetMatch f.fileName] := by
    unfold fileIssues
    rw [if_neg (by simp [hferr]), if_pos hmatch]
  have hval2 : (validate_files_compatibility ref files).2 =
      (files.map (fileIssues (ref.sheets.map SheetE.name))).flatten := by
    unfold validate_files_compatibility
    rw [if_neg hrefne]
  have hmem : CompatIssue.noSheetMatch f.fileName ∈
      (validate_files_compatibility ref files).2 := by
    rw [hval2]
    apply List.mem_flatten.mpr
    refine ⟨fileIssues (ref.sheets.map SheetE.name) f, List.mem_map_of_mem _ hf, ?_⟩
    rw [hissue]
    exact List.mem_singleton.mpr rfl
  refine ⟨hmem, ?_⟩
  have hne : (validate_files_compatibility ref files).2 ≠ [] :=
    List.ne_nil_of_mem hmem
  have hfail : (validate_files_compatibility ref files).1 = false := by
    unfold validate_files_compatibility at hne ⊢
    rw [if_neg hrefne] at hne ⊢
    simpa [List.isEmpty_iff] using hne
  unfold merge_run_gate
  rw [if_neg hrefne, if_neg hsheets, if_neg (by simp [hfail])]

/-- C1 amended witness: a candidate with no usable sheets yields an empty
sheet mapping, is recorded as an issue, and the run aborts. -/
theorem C1_zero_match_aborts_witness :
    CompatIssue.noSheetMatch "empty.xlsx" ∈
        (validate_files_compatibility refEx [candNoSheets]).2 ∧
      merge_run_gate refEx [candNoSheets] = MergeStage.failedCompatibility :=
  C1_zero_match_aborts refEx [candNoSheets] candNoSheets rfl (by decide)
    (List.mem_singleton.mpr rfl) rfl rfl

lemma dch_not_space (n : Nat) : isPySpace (dch n) = false := by
  rcases n with _ | _ | _ | _ | _ | _ | _ | _ | _ | n <;> rfl

lemma pad2_not_space {z : Int} {c : Char} (hc : c ∈ pad2 z) : isPySpace c = false := by
  simp only [pad2, List.mem_cons, List.mem_singleton, List.not_mem_nil, or_false] at hc
  rcases hc with rfl | rfl <;> exact dch_not_space _

lemma pad4_not_space {z : Int} {c : Char} (hc : c ∈ pad4 z) : isPySpace c = false := by
  simp only [pad4, List.mem_cons, List.not_mem_nil, or_false] at hc
  rcases hc with rfl | rfl | rfl | rfl <;> exact dch_not_space _

lemma fmtDate_not_space (t : TargetFmt) (y m d : Int) :
    ∀ c ∈ fmtDate t.toks y m d, isPySpace c = false := by
  cases t <;>
  · intro c hc
    simp only [TargetFmt.toks, fmtDate, fmtYmdDash, fmtYmdSlash, fmtMdySlash,
      fmtDmySlash, fmtYmdDot, List.foldr_cons, List.foldr_nil, List.append_nil,
      List.singleton_append, List.mem_append, List.mem_cons] at hc
    rcases hc with hc | hc | hc | hc | hc <;>
      first
        | exact pad4_not_space hc
        | exact pad2_not_space hc
        | (subst hc; rfl)

lemma fmtDate_ne_nil (t : TargetFmt) (y m d : Int) : fmtDate t.toks y m d ≠ [] := by
  cases t <;>
    simp [TargetFmt.toks, fmtDate, fmtYmdDash, fmtYmdSlash, fmtMdySlash,
      fmtDmySlash, fmtYmdDot, pad4, pad2]

lemma pyStrip_id {l : List Char} (h : ∀ c ∈ l, isPySpace c = false) : pyStrip l = l := by
  have h1 : ∀ (m : List Char), (∀ c ∈ m, isPySpace c = false) →
      m.dropWhile isPySpace = m := by
    intro m hm
    cases m with
    | nil => rfl
    | cons c cs =>
      rw [List.dropWhile_cons]
      simp [hm c (List.mem_cons_self _ _)]
  unfold pyStrip
  rw [h1 l h, h1 l.reverse (fun c hc => h c (List.mem_reverse.mp hc)),
    List.reverse_reverse]

/-- C9: date normalization is idempotent on already-canonical strings: a
string cell that parses under the column's target pattern and reformats to
itself is returned unchanged, with no ChangeRecord. -/
theorem C9_canonical_date_idempotent (t : TargetFmt) (s : List Char)
    (h : is_target_format s t.toks = true) :
    normalize_date_cell t (Cell.str s) = (Cell.str s, Option.none) := by
  obtain ⟨v, hv, hfmt⟩ : ∃ v, strptimeFmt t.toks s = some v ∧
      fmtDate t.toks (v.y : Int) (v.m : Int) (v.d : Int) = s := by
    unfold is_target_format at h
    cases hp : strptimeFmt t.toks s with
    | none => rw [hp] at h; exact absurd h (by simp)
    | some v =>
      rw [hp] at h
      exact ⟨v, rfl, by simpa using h⟩
  have hall : ∀ c ∈ s, isPySpace c = false := by
    intro c hc
    rw [← hfmt] at hc
    exact fmtDate_not_space t _ _ _ c hc
  have hstrip : pyStrip s = s := pyStrip_id hall
  have hne : s ≠ [] := by rw [← hfmt]; exact fmtDate_ne_nil t _ _ _
  simp only [normalize_date_cell]
  simp only [hstrip]
  rw [if_neg hne, if_pos h]
  simp

/-- C9 witness: the spec's example — target pattern `%Y-%m-%d` with input
`"2024-03-05"` is returned unchanged with an empty log delta. -/
theorem C9_witness :
    is_target_format ("2024-03-05".toList) TargetFmt.ymdDash.toks = true ∧
      normalize_date_cell TargetFmt.ymdDash (Cell.str ("2024-03-05".toList)) =
        (Cell.str ("2024-03-05".toList), Option.none) :=
  ⟨rfl, C9_canonical_date_idempotent TargetFmt.ymdDash ("2024-03-05".toList) rfl⟩

/-- C3: for serial values `1 ≤ v ≤ 2958465` (int or integral float), date
normalization renders the calendar date `1899-12-30 + v days` in the target
pattern (the code computes `datetime(1900,1,1) + timedelta(days=v-2)`,
which is the same day number); in particular serial 1 renders as
`1899-12-31`. -/
theorem C3_serial_date_conversion (t : TargetFmt) (z : Int)
    (h1 : 1 ≤ z) (h2 : z ≤ 2958465) :
    ((normalize_date_cell t (Cell.int z)).1 =
        Cell.str (fmtDate t.toks (civilFromDays (daysFromCivil 1899 12 30 + z)).1
          (civilFromDays (daysFromCivil 1899 12 30 + z)).2.1
          (civilFromDays (daysFromCivil 1899 12 30 + z)).2.2) ∧
      (normalize_date_cell t (Cell.float (Frac.ofInt z))).1 =
        Cell.str (fmtDate t.toks (civilFromDays (daysFromCivil 1899 12 30 + z)).1
          (civilFromDays (daysFromCivil 1899 12 30 + z)).2.1
          (civilFromDays (daysFromCivil 1899 12 30 + z)).2.2)) ∧
    (normalize_date_cell TargetFmt.ymdDash (Cell.int 1)).1 =
      Cell.str ("1899-12-31".toList) := by
  have harg : daysFromCivil 1900 1 1 + (z - 2) = daysFromCivil 1899 12 30 + z := by
    have h2d : daysFromCivil 1900 1 1 = daysFromCivil 1899 12 30 + 2 := by decide
    rw [h2d]; ring
  refine ⟨⟨?_, ?_⟩, rfl⟩
  · simp only [normalize_date_cell]
    rw [if_pos ⟨h1, h2⟩, harg]
  · have hsub : fsub (Frac.ofInt z) (Frac.ofInt 2) = ⟨z - 2, 1⟩ := by
      unfold fsub Frac.ofInt mkFrac
      rw [if_neg (by norm_num)]
      simp
    have hfloor : ffloor ⟨z - 2, 1⟩ = z - 2 := Int.fdiv_one _
    have hguard : fleB f1 (Frac.ofInt z) = true ∧
        fleB (Frac.ofInt z) (Frac.ofInt 2958465) = true := by
      constructor <;>
      · simp [fleB, f1, Frac.ofInt]
        omega
    simp only [normalize_date_cell]
    rw [if_pos hguard, hsub, hfloor, harg]

/-- C3 witness: serial 2 converts to 1900-01-01 under the ISO target, and
serial 1 to 1899-12-31. -/
theorem C3_witness :
    (normalize_date_cell TargetFmt.ymdDash (Cell.int 2)).1 =
        Cell.str ("1900-01-01".toList) ∧
      (normalize_date_cell TargetFmt.ymdDash (Cell.float (Frac.ofInt 2))).1 =
        Cell.str ("1900-01-01".toList) ∧
      (normalize_date_cell TargetFmt.ymdDash (Cell.int 1)).1 =
        Cell.str ("1899-12-31".toList) := by
  have h := C3_serial_date_conversion TargetFmt.ymdDash 2 (by decide) (by decide)
  refine ⟨?_, ?_, h.2⟩
  · rw [h.1.1]; rfl
  · rw [h.1.2]; rfl

/-- C10: the regex-based fallback date parser accepts an interpretation only
when the inferred month is in 1–12, the day in 1–31 AND the year in
1900–2100; an inferred year outside 1900–2100 yields no result, and when
every strptime pattern has also failed the cell passes through unchanged
with no record. -/
theorem C10_regex_fallback_year_bounds (s : List Char) (t : TargetFmt)
    (y m d : Nat) (h1 : inferYMD s = some (y, m, d)) :
    (¬(1900 ≤ y ∧ y ≤ 2100) → parse_date_with_regex s t.toks = Option.none) ∧
      (parse_date_with_regex s t.toks ≠ Option.none →
        1 ≤ m ∧ m ≤ 12 ∧ 1 ≤ d ∧ d ≤ 31 ∧ 1900 ≤ y ∧ y ≤ 2100) ∧
      (pyStrip s = s → s ≠ [] → is_target_format s t.toks = false →
        dateFormats.findSome? (fun f => strptimeFmt f s) = Option.none →
        ¬(1900 ≤ y ∧ y ≤ 2100) →
        normalize_date_cell t (Cell.str s) = (Cell.str s, Option.none)) := by
  have hnone : ¬(1900 ≤ y ∧ y ≤ 2100) → parse_date_with_regex s t.toks = Option.none := by
    intro hy
    have hc : ¬(1 ≤ m ∧ m ≤ 12 ∧ 1 ≤ d ∧ d ≤ 31 ∧ 1900 ≤ y ∧ y ≤ 2100) :=
      fun hc => hy ⟨hc.2.2.2.2.1, hc.2.2.2.2.2⟩
    unfold parse_date_with_regex
    rw [h1]
    simp [hc]
  refine ⟨hnone, ?_, ?_⟩
  · intro hne
    unfold parse_date_with_regex at hne
    rw [h1] at hne
    by_cases hc : 1 ≤ m ∧ m ≤ 12 ∧ 1 ≤ d ∧ d ≤ 31 ∧ 1900 ≤ y ∧ y ≤ 2100
    · exact hc
    · simp [hc] at hne
  · intro hstrip hneq htf hfmts hy
    simp only [normalize_date_cell]
    simp only [hstrip]
    rw [if_neg hneq, if_neg (by simp [htf]), hfmts, hnone hy]

/-- C10 witness: `"02~03~2500"` infers year 2500 (outside 1900–2100), fails
every strptime pattern, and passes through date normalization unchanged. -/
theorem C10_witness :
    inferYMD ("02~03~2500".toList) = some (2500, 2, 3) ∧
      parse_date_with_regex ("02~03~2500".toList) TargetFmt.ymdDash.toks =
        Option.none ∧
      normalize_date_cell TargetFmt.ymdDash (Cell.str ("02~03~2500".toList)) =
        (Cell.str ("02~03~2500".toList), Option.none) := by
  have h := C10_regex_fallback_year_bounds ("02~03~2500".toList) TargetFmt.ymdDash
    2500 2 3 rfl
  exact ⟨rfl, h.1 (by decide), h.2.2 rfl (by decide) rfl rfl (by decide)⟩

/-- C8: normalizing the string cell `"1,234.567"` under a number profile
with two decimal places yields the float 1234.57 (`fq 123457 100`) and
appends exactly one `number_format` ChangeRecord carrying the original
string and the rounded value. -/
theorem C8_number_normalization_example :
    normalize_column (Standard.number ⟨2, true⟩) "file.xlsx" "Sheet1" "금액"
        [Cell.str ("1,234.567".toList)] =
      ([Cell.float (fq 123457 100)],
       [⟨"file.xlsx", "Sheet1", 0, "금액", "number_format",
         Cell.str ("1,234.567".toList), Cell.float (fq 123457 100)⟩]) := rfl

/-- C7: `_analyze_text_format` infers 'upper' from a single uppercase
sample, but two unanimously uppercase samples yield NO case rule (the
second sample flips the pattern to 'mixed'), contradicting the documented
"all samples unanimously share the case ⇒ that case rule" behaviour. -/
theorem C7_unanimous_upper_gives_no_rule :
    analyze_text_format [Cell.str ("AB".toList)] = ⟨false, false, some "upper"⟩ ∧
      analyze_text_format [Cell.str ("AB".toList), Cell.str ("CD".toList)] =
        ⟨false, false, Option.none⟩ ∧
      pyIsUpper ("AB".toList) = true ∧ pyIsUpper ("CD".toList) = true :=
  ⟨rfl, rfl, rfl, rfl⟩

/-- C2: the change log is NOT accumulated across the run — starting from a
normalizer state holding one prior record, processing a candidate whose
sheet name differs from the reference appends a `sheet_mapping` record, yet
the final state is empty: `normalize_data` resets `self.change_logs`,
erasing both the prior record and the mapping record. -/
theorem C2_log_reset_erases_records :
    (process_merge_file [⟨"Employees", ["이름"]⟩]
        [("Employees", [("이름", Standard.text ⟨true, true, Option.none⟩)])]
        "cand.xlsx" ["employees"]
        [("employees", [("이름", [Cell.str ("kim".toList)])])]
        [⟨"prior.xlsx", "Employees", 0, "이름", "text_format",
          Cell.str ("x ".toList), Cell.str ("x".toList)⟩]).2 = [] ∧
      sheetMappingRecs "cand.xlsx"
          (match_sheets ["Employees"] ["employees"] defaultSheetThreshold) =
        [⟨"cand.xlsx", "Employees", -1, "SHEET_NAME", "sheet_mapping",
          Cell.str ("employees".toList), Cell.str ("Employees".toList)⟩] :=
  ⟨rfl, rfl⟩

end EM
